import Mathlib

/-!
Verification of the date/time core of the `whenever` library.

The embedding follows `src/date.rs` (date validation) and
`src/utc_datetime.rs` (the `Instant` composer).  The ordinal converter
(`date::ymd_to_ord` / `date::ord_to_ymd`) and the `time` module are called
from `utc_datetime.rs` but their bodies are not among the sources under
review; they are modelled from the specification (sections 3, 4.2 and 4.3),
as indicated on the corresponding definitions.

Machine integers are modelled as `Nat` with explicit `% 2^w` reductions at
the points where the source narrows a value (`as u32`, `as u8`, `u64`
arithmetic).
-/

set_option maxRecDepth 20000

namespace Whenever

/-! ## Data model (src/date.rs, src/utc_datetime.rs, spec sect. 3) -/

/-- `_Date` from `src/date.rs`: year is a `u16`, month and day are `u8`. -/
structure Date where
  year : Nat
  month : Nat
  day : Nat
deriving DecidableEq

/-- `DateError` from `src/date.rs`. -/
inductive DateError where
  | InvalidYear
  | InvalidMonth
  | InvalidDay
deriving DecidableEq

/-- Modelled from the spec: the `time` module (`time::Time`) is not among the
sources under review; section 3 of the spec gives the TimeOfDay fields
(hour, minute, second, nanosecond).  Field names follow the struct literal
in `Instant::to_datetime` (`src/utc_datetime.rs`). -/
structure Time where
  hour : Nat
  minute : Nat
  second : Nat
  nanos : Nat
deriving DecidableEq

/-- `naive_datetime::DateTime`, as used in `src/utc_datetime.rs`: a `Date`
paired with a `Time`. -/
structure DateTime where
  date : Date
  time : Time
deriving DecidableEq

/-- `Instant` from `src/utc_datetime.rs`: `secs : u64`, `nanos : u32`. -/
structure Instant where
  secs : Nat
  nanos : Nat
deriving DecidableEq

def U8_MOD : Nat := 256
def U16_MOD : Nat := 65536
def U32_MOD : Nat := 4294967296
def U64_MOD : Nat := 18446744073709551616

/-! ## Date validation (src/date.rs) -/

def MAX_YEAR : Nat := 9999
def MIN_YEAR : Nat := 1

/-- The `DAYS_IN_MONTH` table from `src/date.rs` (1-indexed, slot 0 unused). -/
def DAYS_IN_MONTH : List Nat :=
  [0, 31, 28, 31, 30, 31, 30, 31, 31, 30, 31, 30, 31]

/-- `is_leap` from `src/date.rs`. -/
def is_leap (year : Nat) : Bool :=
  (year % 4 == 0 && year % 100 != 0) || year % 400 == 0

/-- `days_in_month` from `src/date.rs`. -/
def days_in_month (year month : Nat) : Nat :=
  if month == 2 && is_leap year then 29 else DAYS_IN_MONTH.getD month 0

/-- `check_date` from `src/date.rs`.  The three `try_from` conversions
narrow the `u64` arguments to `u16` (year) and `u8` (month, day); a failed
narrowing yields the error of the corresponding field.  The range checks
then run in the order year, month, day. -/
def check_date (year month day : Nat) : Except DateError Date :=
  if U16_MOD ≤ year then .error .InvalidYear
  else if U8_MOD ≤ month then .error .InvalidMonth
  else if U8_MOD ≤ day then .error .InvalidDay
  else if year < MIN_YEAR ∨ MAX_YEAR < year then .error .InvalidYear
  else if month < 1 ∨ 12 < month then .error .InvalidMonth
  else if day < 1 ∨ days_in_month year month < day then .error .InvalidDay
  else .ok ⟨year, month, day⟩

/-- The CalendarDate invariant (spec sect. 3). -/
def ValidDate (d : Date) : Prop :=
  MIN_YEAR ≤ d.year ∧ d.year ≤ MAX_YEAR ∧ 1 ≤ d.month ∧ d.month ≤ 12 ∧
    1 ≤ d.day ∧ d.day ≤ days_in_month d.year d.month

instance (d : Date) : Decidable (ValidDate d) := by
  unfold ValidDate; exact inferInstance

/-- The TimeOfDay invariant (spec sect. 3). -/
def ValidTime (t : Time) : Prop :=
  t.hour ≤ 23 ∧ t.minute ≤ 59 ∧ t.second ≤ 59 ∧ t.nanos ≤ 999999999

instance (t : Time) : Decidable (ValidTime t) := by
  unfold ValidTime; exact inferInstance

/-- The CivilDateTime invariant (spec sect. 3). -/
def ValidDateTime (dt : DateTime) : Prop :=
  ValidDate dt.date ∧ ValidTime dt.time

instance (dt : DateTime) : Decidable (ValidDateTime dt) := by
  unfold ValidDateTime; exact inferInstance

/-! ## Ordinal converter (modelled from spec sect. 4.2)

`date::ymd_to_ord` and `date::ord_to_ymd` are called from
`src/utc_datetime.rs` but their bodies are not among the sources under
review.  Spec sect. 4.2 prescribes a closed-form civil-calendar algorithm
that shifts the year start to March 1 internally (so that the
variable-length February falls at the end of the internal year) and uses
the standard 400/100/4-year leap-cycle decomposition; sect. 3 fixes
ordinal 0 = 0001-01-01. -/

/-- Internal (March-shifted) year of a calendar date: January and February
belong to the previous internal year. -/
def shiftedYear (year month : Nat) : Nat :=
  if month ≤ 2 then year - 1 else year

/-- First day-of-internal-year of shifted month `mp` (March = 0, ...,
February = 11). -/
def monthStartDoy (mp : Nat) : Nat := (153 * mp + 2) / 5

/-- Day of the internal (March-based) year of a calendar (month, day). -/
def doyOf (month day : Nat) : Nat :=
  monthStartDoy ((month + 9) % 12) + (day - 1)

/-- Days before internal year `yoe` within its 400-year era. -/
def S (yoe : Nat) : Nat := 365 * yoe + yoe / 4 - yoe / 100

/-- Internal-year-of-era recovered from a day-of-era. -/
def yoeOf (doe : Nat) : Nat :=
  (doe - doe / 1460 + doe / 36524 - doe / 146096) / 365

/-- Modelled from the spec: `date::ymd_to_ord` (sect. 4.2, sect. 3).
Ordinal 0 is 0001-01-01; the calendar year is shifted to start in March and
the day count is assembled from the 400-year era, the internal
year-of-era, and the day-of-internal-year. -/
def ymd_to_ord (year month day : Nat) : Nat :=
  shiftedYear year month / 400 * 146097
    + (S (shiftedYear year month % 400) + doyOf month day) - 306

/-! The inverse direction, `date::ord_to_ymd`, is modelled componentwise:
the 400-year era and day-of-era are split off, the internal year-of-era and
day-of-year are recovered, then the shifted month and the day, and finally
the March shift is undone. -/

/-- 400-year era of an ordinal. -/
def eraOf (ord : Nat) : Nat := (ord + 306) / 146097

/-- Day within the 400-year era of an ordinal. -/
def doeOf (ord : Nat) : Nat := (ord + 306) % 146097

/-- Day of the internal year of an ordinal. -/
def doyAt (ord : Nat) : Nat := doeOf ord - S (yoeOf (doeOf ord))

/-- Shifted month of an ordinal. -/
def mpAt (ord : Nat) : Nat := (5 * doyAt ord + 2) / 153

/-- Calendar month of an ordinal (March shift undone). -/
def monthAt (ord : Nat) : Nat :=
  if mpAt ord < 10 then mpAt ord + 3 else mpAt ord - 9

/-- Calendar day-of-month of an ordinal. -/
def dayAt (ord : Nat) : Nat := doyAt ord - monthStartDoy (mpAt ord) + 1

/-- Calendar year of an ordinal (March shift undone). -/
def yearAt (ord : Nat) : Nat :=
  if monthAt ord ≤ 2 then yoeOf (doeOf ord) + eraOf ord * 400 + 1
  else yoeOf (doeOf ord) + eraOf ord * 400

/-- Modelled from the spec: `date::ord_to_ymd` (sect. 4.2), the inverse
closed form. -/
def ord_to_ymd (ord : Nat) : Nat × Nat × Nat :=
  (yearAt ord, monthAt ord, dayAt ord)

/-! ## Instant composer (src/utc_datetime.rs) -/

/-- `Instant::to_datetime` from `src/utc_datetime.rs`.  The ordinal is
`(self.secs / 86400) as u32` (hence the `% U32_MOD`); hour, minute and
second are narrowed to `u8`. -/
def Instant.to_datetime (i : Instant) : DateTime :=
  let ord := i.secs / 86400 % U32_MOD
  let ymd := ord_to_ymd ord
  { date := { year := ymd.1, month := ymd.2.1, day := ymd.2.2 },
    time := { hour := i.secs % 86400 / 3600 % U8_MOD,
              minute := i.secs % 3600 / 60 % U8_MOD,
              second := i.secs % 60 % U8_MOD,
              nanos := i.nanos } }

/-- `Instant::from_datetime` from `src/utc_datetime.rs`: all summands are
widened to `u64` and the sum is `u64` arithmetic (hence the `% U64_MOD`). -/
def Instant.from_datetime (dt : DateTime) : Instant :=
  { secs := (ymd_to_ord dt.date.year dt.date.month dt.date.day * 86400
        + dt.time.hour * 3600 + dt.time.minute * 60 + dt.time.second) % U64_MOD,
    nanos := dt.time.nanos }

/-- The strict order on `Instant` derived in `src/utc_datetime.rs`
(`derive(Ord, PartialOrd)` on the field order `secs`, `nanos`):
lexicographic by (seconds, nanoseconds). -/
def Instant.lt (a b : Instant) : Prop :=
  a.secs < b.secs ∨ (a.secs = b.secs ∧ a.nanos < b.nanos)

instance (a b : Instant) : Decidable (Instant.lt a b) := by
  unfold Instant.lt; exact inferInstance

/-- Calendar (lexicographic field-wise) order on dates. -/
def Date.chronoLt (a b : Date) : Prop :=
  a.year < b.year ∨ (a.year = b.year ∧
    (a.month < b.month ∨ (a.month = b.month ∧ a.day < b.day)))

instance (a b : Date) : Decidable (Date.chronoLt a b) := by
  unfold Date.chronoLt; exact inferInstance

/-- Clock (lexicographic field-wise) order on times of day. -/
def Time.chronoLt (a b : Time) : Prop :=
  a.hour < b.hour ∨ (a.hour = b.hour ∧
    (a.minute < b.minute ∨ (a.minute = b.minute ∧
      (a.second < b.second ∨ (a.second = b.second ∧ a.nanos < b.nanos)))))

instance (a b : Time) : Decidable (Time.chronoLt a b) := by
  unfold Time.chronoLt; exact inferInstance

/-- Chronological (lexicographic field-wise) order on civil date-times. -/
def DateTime.chronoLt (a b : DateTime) : Prop :=
  Date.chronoLt a.date b.date ∨ (a.date = b.date ∧ Time.chronoLt a.time b.time)

instance (a b : DateTime) : Decidable (DateTime.chronoLt a b) := by
  unfold DateTime.chronoLt; exact inferInstance

/-! ## Year-of-era recovery: correctness of `yoeOf`

`yoeOf doe` must return the internal year-of-era whose day range contains
`doe`, for every `doe` in a 400-year era (`doe < 146097`).  The quotient
`(doe - doe/1460 + doe/36524 - doe/146096) / 365` is handled by proving the
adjusted numerator monotone and checking the 400 year boundaries by
`decide`; the single day where the `doe/146096` term matters (the last day
of the era) is checked separately. -/

/-- End-of-era extension of `S`: the 400-year era holds 146097 days, one
more than `S 400` would suggest, because internal year 399 ends with the
century leap day. -/
def SExt (yoe : Nat) : Nat := if yoe = 400 then 146097 else S yoe

/-- The adjusted numerator of `yoeOf`, valid below the last day of the era
(where the `doe / 146096` correction is zero), rearranged to a single
truncated subtraction. -/
def doeAdj (doe : Nat) : Nat := doe + doe / 36524 - doe / 1460

theorem doeAdj_step (n : Nat) : doeAdj n ≤ doeAdj (n + 1) := by
  unfold doeAdj
  have h1 : n / 1460 ≤ (n + 1) / 1460 := Nat.div_le_div_right (Nat.le_succ n)
  have h2 : (n + 1) / 1460 ≤ n / 1460 + 1 := by
    have := Nat.div_le_div_right (c := 1460) (Nat.add_le_add_left (by omega : 1 ≤ 1460) n)
    rwa [Nat.add_div_right _ (by omega)] at this
  have h3 : n / 36524 ≤ (n + 1) / 36524 := Nat.div_le_div_right (Nat.le_succ n)
  have h4 : n / 1460 ≤ n := Nat.div_le_self _ _
  omega

theorem doeAdj_mono {m n : Nat} (hmn : m ≤ n) : doeAdj m ≤ doeAdj n := by
  induction hmn with
  | refl => exact Nat.le_refl _
  | step _ ih => exact Nat.le_trans ih (doeAdj_step _)

theorem yoeOf_eq_doeAdj {doe : Nat} (hd : doe < 146096) :
    yoeOf doe = doeAdj doe / 365 := by
  unfold yoeOf doeAdj
  have h1 : doe / 146096 = 0 := Nat.div_eq_of_lt hd
  have h2 : doe / 1460 ≤ doe := Nat.div_le_self _ _
  rw [h1]
  congr 1
  omega

/-- The 400 boundary checks: `doeAdj / 365` names the right internal year at
the first and last day (capped below the era's final day) of each of the
400 internal years of an era. -/
theorem yoe_boundary : ∀ yoe < 400,
    doeAdj (S yoe) / 365 = yoe ∧
    doeAdj (min (SExt (yoe + 1) - 1) 146095) / 365 = yoe := by decide

theorem yoeOf_last : yoeOf 146096 = 399 := by decide

/-- Each internal year of an era spans 365 or 366 days. -/
theorem lenExt_bounds : ∀ yoe < 400,
    S yoe + 365 ≤ SExt (yoe + 1) ∧ SExt (yoe + 1) ≤ S yoe + 366 := by decide

theorem SExt_lt_last : ∀ k < 400, SExt k ≤ 145731 := by decide

/-- `yoeOf` is constant on each internal year's day interval. -/
theorem yoeOf_interval {yoe doe : Nat} (hy : yoe < 400)
    (h1 : S yoe ≤ doe) (h2 : doe < SExt (yoe + 1)) : yoeOf doe = yoe := by
  rcases Nat.lt_or_ge doe 146096 with hlt | hge
  · -- below the era's final day: sandwich `doeAdj doe / 365` between the
    -- two boundary checks using monotonicity
    obtain ⟨e1, e2⟩ := yoe_boundary yoe hy
    have hcap : doe ≤ min (SExt (yoe + 1) - 1) 146095 := by omega
    have lo : yoe ≤ yoeOf doe := by
      rw [yoeOf_eq_doeAdj hlt, ← e1]
      exact Nat.div_le_div_right (doeAdj_mono h1)
    have hi : yoeOf doe ≤ yoe := by
      rw [yoeOf_eq_doeAdj hlt]
      calc doeAdj doe / 365 ≤ doeAdj (min (SExt (yoe + 1) - 1) 146095) / 365 :=
            Nat.div_le_div_right (doeAdj_mono hcap)
        _ = yoe := e2
    omega
  · -- the era's final day belongs to internal year 399
    have hde : doe = 146096 := by
      rcases Nat.lt_or_ge (yoe + 1) 400 with hk | hk
      · have := SExt_lt_last (yoe + 1) hk; omega
      · have h400 : yoe + 1 = 400 := by omega
        have : SExt (yoe + 1) = 146097 := by rw [h400]; rfl
        omega
    have h399 : yoe = 399 := by
      by_contra hne
      have hk : yoe + 1 < 400 := by omega
      have := SExt_lt_last (yoe + 1) hk
      omega
    rw [hde, h399, yoeOf_last]

theorem coverAux : ∀ k, k ≤ 400 → ∀ doe, doe < SExt k →
    ∃ yoe, yoe < k ∧ S yoe ≤ doe ∧ doe < SExt (yoe + 1) := by
  intro k
  induction k with
  | zero =>
    intro _ doe hd
    have h0 : SExt 0 = 0 := rfl
    omega
  | succ n ih =>
    intro hn doe hd
    have hSn : SExt n = S n := by
      have : n ≠ 400 := by omega
      simp [SExt, this]
    rcases Nat.lt_or_ge doe (S n) with hlt | hge
    · obtain ⟨yoe, h1, h2, h3⟩ := ih (by omega) doe (by omega)
      exact ⟨yoe, by omega, h2, h3⟩
    · exact ⟨n, by omega, hge, hd⟩

/-- Every day of a 400-year era falls in exactly one internal year. -/
theorem cover {doe : Nat} (hd : doe < 146097) :
    ∃ yoe, yoe < 400 ∧ S yoe ≤ doe ∧ doe < SExt (yoe + 1) := by
  have h : SExt 400 = 146097 := rfl
  exact coverAux 400 (Nat.le_refl _) doe (by omega)

/-! ## Month-level facts (all finite, settled by `decide`) -/

/-- Shifted month recovered from a day-of-internal-year. -/
def mpOf (doy : Nat) : Nat := (5 * doy + 2) / 153

theorem month_key : ∀ doy < 366, mpOf doy < 12 ∧
    monthStartDoy (mpOf doy) ≤ doy ∧ doy < monthStartDoy (mpOf doy + 1) := by decide

theorem mS_mono_le : ∀ b < 13, ∀ a < b + 1, monthStartDoy a ≤ monthStartDoy b := by decide

theorem mS_mono_lt : ∀ b < 13, ∀ a < b, monthStartDoy a < monthStartDoy b := by decide

/-- The shifted-month intervals are disjoint, so `mpOf` is determined. -/
theorem mpOf_interval {mp doy : Nat} (hmp : mp < 12) (hdoy : doy < 366)
    (h1 : monthStartDoy mp ≤ doy) (h2 : doy < monthStartDoy (mp + 1)) :
    mpOf doy = mp := by
  obtain ⟨k1, k2, k3⟩ := month_key doy hdoy
  rcases Nat.lt_trichotomy (mpOf doy) mp with hlt | heq | hgt
  · have : monthStartDoy (mpOf doy + 1) ≤ monthStartDoy mp :=
      mS_mono_le mp (by omega) (mpOf doy + 1) (by omega)
    omega
  · exact heq
  · have : monthStartDoy (mp + 1) ≤ monthStartDoy (mpOf doy) :=
      mS_mono_le (mpOf doy) (by omega) (mp + 1) (by omega)
    omega

/-- Translation between calendar months 1..12 and shifted months: the
shifted month, its inverse, and the January/February criterion. -/
theorem month_mp : ∀ m < 13, 1 ≤ m →
    (m + 9) % 12 < 12 ∧
    (if (m + 9) % 12 < 10 then (m + 9) % 12 + 3 else (m + 9) % 12 - 9) = m ∧
    (m ≤ 2 ↔ 10 ≤ (m + 9) % 12) := by decide

theorem mp_month : ∀ mp < 12,
    ((if mp < 10 then mp + 3 else mp - 9) + 9) % 12 = mp ∧
    1 ≤ (if mp < 10 then mp + 3 else mp - 9) ∧
    (if mp < 10 then mp + 3 else mp - 9) ≤ 12 ∧
    ((if mp < 10 then mp + 3 else mp - 9) ≤ 2 ↔ 10 ≤ mp) ∧
    ((if mp < 10 then mp + 3 else mp - 9) = 2 ↔ mp = 11) := by decide

theorem getD_le_31 : ∀ m < 13, DAYS_IN_MONTH.getD m 0 ≤ 31 := by decide

theorem getD_out (m : Nat) (hm : 13 ≤ m) : DAYS_IN_MONTH.getD m 0 = 0 := by
  apply List.getD_eq_default
  simp only [DAYS_IN_MONTH, List.length]
  omega

theorem dim_le_31 (y m : Nat) : days_in_month y m ≤ 31 := by
  unfold days_in_month
  split
  · omega
  · rcases Nat.lt_or_ge m 13 with hm | hm
    · exact getD_le_31 m hm
    · rw [getD_out m hm]; omega

/-- Every month's length is at most the length of its slot in the shifted
153-day pattern (February, the last shifted month, has slack). -/
theorem dim_le_pattern (y m : Nat) (h1 : 1 ≤ m) (h2 : m ≤ 12) :
    days_in_month y m ≤
      monthStartDoy ((m + 9) % 12 + 1) - monthStartDoy ((m + 9) % 12) := by
  have hpat : ∀ m' < 13, 1 ≤ m' → DAYS_IN_MONTH.getD m' 0 ≤
      monthStartDoy ((m' + 9) % 12 + 1) - monthStartDoy ((m' + 9) % 12) ∧
      (m' = 2 → 30 ≤ monthStartDoy ((m' + 9) % 12 + 1) - monthStartDoy ((m' + 9) % 12)) := by
    decide
  unfold days_in_month
  split
  · next hc =>
    rw [Bool.and_eq_true, beq_iff_eq] at hc
    have := (hpat m (by omega) h1).2 hc.1
    omega
  · exact (hpat m (by omega) h1).1

/-- For the ten shifted months other than January and February, the pattern
slot length is exactly the month length. -/
theorem pattern_eq_dim : ∀ mp < 11,
    monthStartDoy (mp + 1) - monthStartDoy mp =
      DAYS_IN_MONTH.getD (if mp < 10 then mp + 3 else mp - 9) 0 := by decide

theorem mS_ge_306 : ∀ mp < 12, 10 ≤ mp → 306 ≤ monthStartDoy mp := by decide

theorem mS_le_275 : ∀ m < 13, 3 ≤ m → monthStartDoy ((m + 9) % 12) ≤ 275 := by decide

theorem mS_jan : monthStartDoy ((1 + 9) % 12) = 306 := by decide

theorem mS_feb : monthStartDoy ((2 + 9) % 12) = 337 := by decide

/-! ## The global day count `G` -/

/-- Days from 0001-03-01 (internal day 0) to the start of internal year `t`:
`G` merges the era and year-of-era parts of the ordinal computation. -/
def G (t : Nat) : Nat := 365 * t + t / 4 - t / 100 + t / 400

theorem G_eq (t : Nat) : t / 400 * 146097 + S (t % 400) = G t := by
  unfold G S; omega

theorem G_step (t : Nat) : G t + 365 ≤ G (t + 1) ∧ G (t + 1) ≤ G t + 366 := by
  unfold G; omega

theorem G_leap_step (t : Nat) (h : is_leap (t + 1) = true) : G t + 366 ≤ G (t + 1) := by
  simp only [is_leap, Bool.or_eq_true, Bool.and_eq_true, beq_iff_eq, bne_iff_ne, ne_eq] at h
  unfold G; omega

theorem lenG_leap (t : Nat) (h : G t + 366 ≤ G (t + 1)) : is_leap (t + 1) = true := by
  simp only [is_leap, Bool.or_eq_true, Bool.and_eq_true, beq_iff_eq, bne_iff_ne, ne_eq]
  unfold G at h; omega

theorem G_mono {m n : Nat} (hmn : m ≤ n) : G m ≤ G n := by
  induction hmn with
  | refl => exact Nat.le_refl _
  | @step k _ ih =>
    exact Nat.le_trans ih (Nat.le_trans (Nat.le_add_right (G k) 365) (G_step k).1)

theorem lenExt_eq_lenG (t : Nat) : SExt (t % 400 + 1) - S (t % 400) = G (t + 1) - G t := by
  have hG1 := G_eq t
  have hG2 := G_eq (t + 1)
  by_cases h : t % 400 = 399
  · have h1 : (t + 1) / 400 = t / 400 + 1 := by omega
    have h2 : (t + 1) % 400 = 0 := by omega
    rw [← hG1, ← hG2, h, h1, h2]
    have hSE : SExt (399 + 1) = 146097 := rfl
    have hs0 : S 0 = 0 := rfl
    have hs399 : S 399 = 145731 := by decide
    rw [hSE, hs0, hs399]
    omega
  · have h1 : (t + 1) / 400 = t / 400 := by omega
    have h2 : (t + 1) % 400 = t % 400 + 1 := by omega
    rw [← hG1, ← hG2, h1, h2]
    have hne : t % 400 + 1 ≠ 400 := by omega
    rw [SExt, if_neg hne]
    omega

/-- `ymd_to_ord` through `G`: the era/year-of-era split collapses. -/
theorem ymd_to_ord_eq_G (y m d : Nat) :
    ymd_to_ord y m d = G (shiftedYear y m) + doyOf m d - 306 := by
  unfold ymd_to_ord
  have hG := G_eq (shiftedYear y m)
  omega

/-! ## Round trip: date → ordinal → date -/

theorem SExt_le_era : ∀ k, k ≤ 400 → SExt k ≤ 146097 := by
  intro k hk
  by_cases h : k = 400
  · subst h
    simp [SExt]
  · exact Nat.le_trans (SExt_lt_last k (by omega)) (by omega)

theorem validDate_mk (y m d : Nat) : ValidDate ⟨y, m, d⟩ ↔
    (1 ≤ y ∧ y ≤ 9999 ∧ 1 ≤ m ∧ m ≤ 12 ∧ 1 ≤ d ∧ d ≤ days_in_month y m) :=
  Iff.rfl

/-- A valid date's day-of-internal-year is less than its internal year's
length (this is where the leap rule meets the 400-year cycle). -/
theorem doy_lt_lenG (y m d : Nat) (hy1 : 1 ≤ y)
    (hm1 : 1 ≤ m) (hm2 : m ≤ 12) (hd1 : 1 ≤ d) (hd2 : d ≤ days_in_month y m) :
    doyOf m d < G (shiftedYear y m + 1) - G (shiftedYear y m) := by
  have hstep := G_step (shiftedYear y m)
  have hdoy : doyOf m d = monthStartDoy ((m + 9) % 12) + (d - 1) := rfl
  by_cases hm3 : 3 ≤ m
  · have hmle := mS_le_275 m (by omega) hm3
    have hd31 : d ≤ 31 := Nat.le_trans hd2 (dim_le_31 y m)
    omega
  · by_cases hm1' : m = 1
    · subst hm1'
      have hd31 : d ≤ 31 := Nat.le_trans hd2 (dim_le_31 y 1)
      have hj : monthStartDoy ((1 + 9) % 12) = 306 := by decide
      omega
    · have hm2' : m = 2 := by omega
      subst hm2'
      have hf : monthStartDoy ((2 + 9) % 12) = 337 := by decide
      have hyy : shiftedYear y 2 + 1 = y := by
        unfold shiftedYear
        rw [if_pos (by omega : (2 : Nat) ≤ 2)]
        omega
      by_cases hleap : is_leap y = true
      · have hls := G_leap_step (shiftedYear y 2) (by rw [hyy]; exact hleap)
        have hdim : days_in_month y 2 = 29 := by
          simp [days_in_month, hleap]
        omega
      · have hdim : days_in_month y 2 = 28 := by
          simp [days_in_month, hleap, DAYS_IN_MONTH]
        omega

theorem G_doy_ge_306 (y m d : Nat) (hy1 : 1 ≤ y)
    (hm1 : 1 ≤ m) (hm2 : m ≤ 12) (hd1 : 1 ≤ d) :
    306 ≤ G (shiftedYear y m) + doyOf m d := by
  have hdoy : doyOf m d = monthStartDoy ((m + 9) % 12) + (d - 1) := rfl
  by_cases hle : m ≤ 2
  · have hmm := month_mp m (by omega) hm1
    have h306 := mS_ge_306 ((m + 9) % 12) hmm.1 (hmm.2.2.mp hle)
    omega
  · have hsy : shiftedYear y m = y := by
      unfold shiftedYear
      rw [if_neg hle]
    rw [hsy]
    have hG1 : G 1 ≤ G y := G_mono hy1
    have hG365 : G 1 = 365 := rfl
    omega

/-- Date → ordinal → date is the identity on valid dates. -/
theorem ord_roundtrip1 (y m d : Nat) (hy1 : 1 ≤ y) (hy2 : y ≤ 9999)
    (hm1 : 1 ≤ m) (hm2 : m ≤ 12) (hd1 : 1 ≤ d) (hd2 : d ≤ days_in_month y m) :
    ord_to_ymd (ymd_to_ord y m d) = (y, m, d) := by
  have hmm := month_mp m (by omega) hm1
  obtain ⟨hmp12, hmpinv, hmple⟩ := hmm
  have hyoe400 : shiftedYear y m % 400 < 400 := Nat.mod_lt _ (by omega)
  have hdoy : doyOf m d = monthStartDoy ((m + 9) % 12) + (d - 1) := rfl
  -- the day-of-year fits its internal year
  have hF2 : doyOf m d <
      SExt (shiftedYear y m % 400 + 1) - S (shiftedYear y m % 400) := by
    rw [lenExt_eq_lenG]
    exact doy_lt_lenG y m d hy1 hm1 hm2 hd1 hd2
  have hlen := lenExt_bounds (shiftedYear y m % 400) hyoe400
  have hSle := SExt_le_era (shiftedYear y m % 400 + 1) (by omega)
  -- the assembled ordinal, un-truncated
  have h306 := G_doy_ge_306 y m d hy1 hm1 hm2 hd1
  have hGeq := G_eq (shiftedYear y m)
  have h1 : ymd_to_ord y m d + 306 =
      shiftedYear y m / 400 * 146097 +
        (S (shiftedYear y m % 400) + doyOf m d) := by
    unfold ymd_to_ord
    omega
  have hdoe_lt : S (shiftedYear y m % 400) + doyOf m d < 146097 := by omega
  -- recover era and day-of-era
  have hera : eraOf (ymd_to_ord y m d) = shiftedYear y m / 400 := by
    unfold eraOf
    omega
  have hdoe : doeOf (ymd_to_ord y m d) =
      S (shiftedYear y m % 400) + doyOf m d := by
    unfold doeOf
    omega
  -- recover the internal year
  have hyoe : yoeOf (S (shiftedYear y m % 400) + doyOf m d) =
      shiftedYear y m % 400 :=
    yoeOf_interval hyoe400 (Nat.le_add_right _ _) (by omega)
  -- recover the day-of-year
  have hdoyAt : doyAt (ymd_to_ord y m d) = doyOf m d := by
    unfold doyAt
    rw [hdoe, hyoe]
    omega
  -- recover the shifted month
  have hpat := dim_le_pattern y m hm1 hm2
  have hmS1 : monthStartDoy ((m + 9) % 12) ≤ monthStartDoy ((m + 9) % 12 + 1) :=
    mS_mono_le ((m + 9) % 12 + 1) (by omega) ((m + 9) % 12) (by omega)
  have hmpa : mpAt (ymd_to_ord y m d) = (m + 9) % 12 := by
    unfold mpAt
    rw [hdoyAt]
    exact mpOf_interval hmp12 (by omega) (by omega) (by omega)
  have hmon : monthAt (ymd_to_ord y m d) = m := by
    unfold monthAt
    rw [hmpa]
    exact hmpinv
  have hday : dayAt (ymd_to_ord y m d) = d := by
    unfold dayAt
    rw [hdoyAt, hmpa]
    omega
  have hyear : yearAt (ymd_to_ord y m d) = y := by
    unfold yearAt
    rw [hmon, hdoe, hyoe, hera]
    by_cases hle : m ≤ 2
    · rw [if_pos hle]
      have hsy : shiftedYear y m = y - 1 := by
        unfold shiftedYear
        rw [if_pos hle]
      rw [hsy]
      omega
    · rw [if_neg hle]
      have hsy : shiftedYear y m = y := by
        unfold shiftedYear
        rw [if_neg hle]
      rw [hsy]
      omega
  unfold ord_to_ymd
  rw [hyear, hmon, hday]

/-! ## Round trip: ordinal → date → ordinal -/

theorem dim_of_ne2 (y m : Nat) (h : m ≠ 2) :
    days_in_month y m = DAYS_IN_MONTH.getD m 0 := by
  unfold days_in_month
  rw [if_neg]
  simp only [Bool.and_eq_true, beq_iff_eq]
  intro hc
  exact h hc.1

theorem dim_feb (y : Nat) :
    days_in_month y 2 = if is_leap y = true then 29 else 28 := by
  unfold days_in_month
  by_cases h : is_leap y = true
  · simp [h]
  · simp [h, DAYS_IN_MONTH]

/-- Components of `ord_to_ymd`: for every ordinal whatsoever, the decoded
month and day are calendar-consistent, the year is positive, and encoding
the decoded date yields the ordinal back. -/
theorem ord_parts (o : Nat) :
    1 ≤ monthAt o ∧ monthAt o ≤ 12 ∧ 1 ≤ dayAt o ∧
    dayAt o ≤ days_in_month (yearAt o) (monthAt o) ∧ 1 ≤ yearAt o ∧
    ymd_to_ord (yearAt o) (monthAt o) (dayAt o) = o := by
  have hera0 : eraOf o = (o + 306) / 146097 := rfl
  have hdoe0 : doeOf o = (o + 306) % 146097 := rfl
  have hdoe400 : doeOf o < 146097 := by omega
  obtain ⟨yoe, hyoe400, hS, hSE⟩ := cover hdoe400
  have hyoe : yoeOf (doeOf o) = yoe := yoeOf_interval hyoe400 hS hSE
  have hlen := lenExt_bounds yoe hyoe400
  have hdoyAt : doyAt o = doeOf o - S yoe := by
    unfold doyAt
    rw [hyoe]
  have hdoy366 : doyAt o < 366 := by omega
  have hdoylen : doyAt o < SExt (yoe + 1) - S yoe := by omega
  obtain ⟨hmp12, hmSle, hmSlt⟩ := month_key (doyAt o) hdoy366
  have hmpa : mpOf (doyAt o) = mpAt o := rfl
  rw [hmpa] at hmp12 hmSle hmSlt
  obtain ⟨hmpinv, hm1, hm2, hmle2, hmeq2⟩ := mp_month (mpAt o) hmp12
  have hmdef : (if mpAt o < 10 then mpAt o + 3 else mpAt o - 9) = monthAt o := rfl
  rw [hmdef] at hmpinv hm1 hm2 hmle2 hmeq2
  have hday1 : 1 ≤ dayAt o := by
    unfold dayAt
    omega
  -- the decoded year
  have hyear_le2 : monthAt o ≤ 2 →
      yearAt o = yoeOf (doeOf o) + eraOf o * 400 + 1 := by
    intro h
    unfold yearAt
    rw [if_pos h]
  have hyear_gt2 : ¬ monthAt o ≤ 2 →
      yearAt o = yoeOf (doeOf o) + eraOf o * 400 := by
    intro h
    unfold yearAt
    rw [if_neg h]
  -- day fits the month
  have hdayle : dayAt o ≤ days_in_month (yearAt o) (monthAt o) := by
    by_cases hfeb : mpAt o = 11
    · -- February, the last shifted month
      have hmon2 : monthAt o = 2 := hmeq2.mpr hfeb
      have hmS11 : monthStartDoy 11 = 337 := by decide
      have hdayeq : dayAt o = doyAt o - monthStartDoy (mpAt o) + 1 := rfl
      rw [hfeb, hmS11] at hdayeq hmSle
      rw [hmon2, dim_feb]
      rcases Nat.lt_or_ge (doyAt o) 365 with hsmall | hbig
      · -- day ≤ 28 fits either February
        split
        · omega
        · omega
      · -- day 365 of the internal year exists only if the length is 366,
        -- which forces the calendar year to be leap
        have hlen366 : SExt (yoe + 1) = S yoe + 366 := by omega
        have hT := lenExt_eq_lenG (yoe + eraOf o * 400)
        have hmod : (yoe + eraOf o * 400) % 400 = yoe := by omega
        rw [hmod] at hT
        have hstep := G_step (yoe + eraOf o * 400)
        have hleap : is_leap (yoe + eraOf o * 400 + 1) = true := by
          apply lenG_leap
          omega
        have hy2 : yearAt o = yoe + eraOf o * 400 + 1 := by
          rw [hyear_le2 (by omega), hyoe]
        rw [hy2, if_pos hleap]
        omega
    · -- not February: the pattern slot length is the month length
      have hne2 : monthAt o ≠ 2 := fun hc => hfeb (hmeq2.mp hc)
      have hpat := pattern_eq_dim (mpAt o) (by omega)
      rw [hmdef] at hpat
      rw [dim_of_ne2 _ _ hne2]
      have hdayeq : dayAt o = doyAt o - monthStartDoy (mpAt o) + 1 := rfl
      have hmono : monthStartDoy (mpAt o) ≤ monthStartDoy (mpAt o + 1) :=
        mS_mono_le (mpAt o + 1) (by omega) (mpAt o) (by omega)
      omega
  -- the year is positive
  have hyear1 : 1 ≤ yearAt o := by
    by_cases h : monthAt o ≤ 2
    · rw [hyear_le2 h]
      omega
    · rw [hyear_gt2 h, hyoe]
      -- a year-zero decode would need a day-of-era below March 1 of year 1
      have hmp10 : mpAt o < 10 := by omega
      have hmono : monthStartDoy (mpAt o + 1) ≤ monthStartDoy 10 :=
        mS_mono_le 10 (by omega) (mpAt o + 1) (by omega)
      have hmS10 : monthStartDoy 10 = 306 := by decide
      have hS0 : S 0 = 0 := rfl
      rcases Nat.eq_zero_or_pos (yoe + eraOf o * 400) with hzero | hpos
      · have hyoe0 : yoe = 0 := by omega
        have hSyoe : S yoe = 0 := by rw [hyoe0]; decide
        omega
      · omega
  -- encoding the decoded date restores the ordinal
  have hshift : shiftedYear (yearAt o) (monthAt o) =
      yoeOf (doeOf o) + eraOf o * 400 := by
    unfold shiftedYear
    by_cases h : monthAt o ≤ 2
    · rw [if_pos h, hyear_le2 h]
      omega
    · rw [if_neg h, hyear_gt2 h]
  have hdoyexp : doyOf (monthAt o) (dayAt o) = doyAt o := by
    unfold doyOf
    rw [hmpinv]
    have hdayeq : dayAt o = doyAt o - monthStartDoy (mpAt o) + 1 := rfl
    omega
  have hmod : (yoeOf (doeOf o) + eraOf o * 400) % 400 = yoeOf (doeOf o) := by
    omega
  have hdiv : (yoeOf (doeOf o) + eraOf o * 400) / 400 = eraOf o := by
    omega
  have hround : ymd_to_ord (yearAt o) (monthAt o) (dayAt o) = o := by
    unfold ymd_to_ord
    rw [hshift, hdoyexp, hmod, hdiv, hyoe]
    omega
  exact ⟨hm1, hm2, hday1, hdayle, hyear1, hround⟩

/-- Ordinal → date → ordinal is the identity (for every ordinal). -/
theorem ord_roundtrip2 (o : Nat) :
    ymd_to_ord (ord_to_ymd o).1 (ord_to_ymd o).2.1 (ord_to_ymd o).2.2 = o :=
  (ord_parts o).2.2.2.2.2

/-! ## Range and monotonicity of the ordinal encoding -/

theorem G_9999 : G 9999 = 3652059 := by decide

theorem G_10000 : G 10000 = 3652425 := by decide

theorem ord_max_val : ymd_to_ord 9999 12 31 = 3652058 := by decide

/-- Any calendar-consistent date with year ≥ 10000 encodes past the
supported ordinal range. -/
theorem ord_lower (y m d : Nat) (hy : 10000 ≤ y)
    (hm1 : 1 ≤ m) (hm2 : m ≤ 12) (hd1 : 1 ≤ d) :
    3652059 ≤ ymd_to_ord y m d := by
  rw [ymd_to_ord_eq_G]
  have hdoy : doyOf m d = monthStartDoy ((m + 9) % 12) + (d - 1) := rfl
  by_cases hle : m ≤ 2
  · have hmm := month_mp m (by omega) hm1
    have h306 := mS_ge_306 ((m + 9) % 12) hmm.1 (hmm.2.2.mp hle)
    have hsy : shiftedYear y m = y - 1 := by
      unfold shiftedYear
      rw [if_pos hle]
    rw [hsy]
    have hmono : G 9999 ≤ G (y - 1) := G_mono (by omega)
    have h9999 := G_9999
    omega
  · have hsy : shiftedYear y m = y := by
      unfold shiftedYear
      rw [if_neg hle]
    rw [hsy]
    have hmono : G 10000 ≤ G y := G_mono (by omega)
    have h10000 := G_10000
    omega

/-- Ordinals in the supported range decode to years at most 9999. -/
theorem yearAt_le (o : Nat) (ho : o ≤ 3652058) : yearAt o ≤ 9999 := by
  obtain ⟨hm1, hm2, hd1, hdle, hy1, hround⟩ := ord_parts o
  by_contra hgt
  have := ord_lower (yearAt o) (monthAt o) (dayAt o) (by omega) hm1 hm2 hd1
  omega

/-! Per-month day-of-year bounds, used to compare dates across the
March-shift. -/

theorem mp_sub3 : ∀ m < 13, 3 ≤ m → (m + 9) % 12 = m - 3 := by decide

theorem doy_ge_306 (m d : Nat) (hm1 : 1 ≤ m) (hle : m ≤ 2) (hd1 : 1 ≤ d) :
    306 ≤ doyOf m d := by
  have hmm := month_mp m (by omega) hm1
  have h306 := mS_ge_306 ((m + 9) % 12) hmm.1 (hmm.2.2.mp hle)
  have hdoy : doyOf m d = monthStartDoy ((m + 9) % 12) + (d - 1) := rfl
  omega

theorem doy_le_305 (y m d : Nat) (hm3 : 3 ≤ m) (hm2 : m ≤ 12)
    (hd : d ≤ days_in_month y m) : doyOf m d ≤ 305 := by
  have hmle := mS_le_275 m (by omega) hm3
  have hd31 : d ≤ 31 := Nat.le_trans hd (dim_le_31 y m)
  have hdoy : doyOf m d = monthStartDoy ((m + 9) % 12) + (d - 1) := rfl
  omega

theorem doy_mono_m3 (y m1 d1 m2 d2 : Nat) (hm3 : 3 ≤ m1) (hlt : m1 < m2)
    (hm2 : m2 ≤ 12) (hd0 : 1 ≤ d1) (hd1 : d1 ≤ days_in_month y m1) (hd2 : 1 ≤ d2) :
    doyOf m1 d1 < doyOf m2 d2 := by
  have hpa := mp_sub3 m1 (by omega) hm3
  have hpb := mp_sub3 m2 (by omega) (by omega)
  have hpat := dim_le_pattern y m1 (by omega) (by omega)
  rw [hpa] at hpat
  have hdoya : doyOf m1 d1 = monthStartDoy ((m1 + 9) % 12) + (d1 - 1) := rfl
  have hdoyb : doyOf m2 d2 = monthStartDoy ((m2 + 9) % 12) + (d2 - 1) := rfl
  rw [hpa] at hdoya
  rw [hpb] at hdoyb
  have hmono1 : monthStartDoy (m1 - 3) ≤ monthStartDoy (m1 - 3 + 1) :=
    mS_mono_le (m1 - 3 + 1) (by omega) (m1 - 3) (by omega)
  have hmono2 : monthStartDoy (m1 - 3 + 1) ≤ monthStartDoy (m2 - 3) :=
    mS_mono_le (m2 - 3) (by omega) (m1 - 3 + 1) (by omega)
  omega

theorem doy_mono_jan_feb (y d1 d2 : Nat) (hd1 : d1 ≤ days_in_month y 1)
    (hd2 : 1 ≤ d2) : doyOf 1 d1 < doyOf 2 d2 := by
  have hdoya : doyOf 1 d1 = monthStartDoy ((1 + 9) % 12) + (d1 - 1) := rfl
  have hdoyb : doyOf 2 d2 = monthStartDoy ((2 + 9) % 12) + (d2 - 1) := rfl
  have hj : monthStartDoy ((1 + 9) % 12) = 306 := by decide
  have hf : monthStartDoy ((2 + 9) % 12) = 337 := by decide
  have hd31 : d1 ≤ 31 := Nat.le_trans hd1 (dim_le_31 y 1)
  omega

/-- A calendar-order increase translates to a lexicographic increase of the
(March-shifted year, day-of-internal-year) pair. -/
theorem shifted_lex (y1 m1 d1 y2 m2 d2 : Nat)
    (hy1 : 1 ≤ y1) (hm11 : 1 ≤ m1) (hm12 : m1 ≤ 12)
    (hd11 : 1 ≤ d1) (hd12 : d1 ≤ days_in_month y1 m1)
    (hm21 : 1 ≤ m2) (hm22 : m2 ≤ 12) (hd21 : 1 ≤ d2)
    (hlt : y1 < y2 ∨ (y1 = y2 ∧ (m1 < m2 ∨ (m1 = m2 ∧ d1 < d2)))) :
    shiftedYear y1 m1 < shiftedYear y2 m2 ∨
      (shiftedYear y1 m1 = shiftedYear y2 m2 ∧ doyOf m1 d1 < doyOf m2 d2) := by
  by_cases ha : m1 ≤ 2 <;> by_cases hb : m2 ≤ 2
  all_goals
    first
    | (have hsa : shiftedYear y1 m1 = y1 - 1 := by unfold shiftedYear; rw [if_pos ha])
    | (have hsa : shiftedYear y1 m1 = y1 := by unfold shiftedYear; rw [if_neg ha])
  all_goals
    first
    | (have hsb : shiftedYear y2 m2 = y2 - 1 := by unfold shiftedYear; rw [if_pos hb])
    | (have hsb : shiftedYear y2 m2 = y2 := by unfold shiftedYear; rw [if_neg hb])
  -- m1 ≤ 2, m2 ≤ 2
  · rcases hlt with hy | ⟨hyeq, hrest⟩
    · left; omega
    · right
      refine ⟨by omega, ?_⟩
      rcases hrest with hm | ⟨hmeq, hd⟩
      · have h1 : m1 = 1 := by omega
        have h2 : m2 = 2 := by omega
        subst h1 h2 hyeq
        exact doy_mono_jan_feb y1 d1 d2 hd12 hd21
      · subst hmeq
        have hdoya : doyOf m1 d1 = monthStartDoy ((m1 + 9) % 12) + (d1 - 1) := rfl
        have hdoyb : doyOf m1 d2 = monthStartDoy ((m1 + 9) % 12) + (d2 - 1) := rfl
        omega
  -- m1 ≤ 2, m2 ≥ 3
  · rcases hlt with hy | ⟨hyeq, _⟩
    · left; omega
    · left; omega
  -- m1 ≥ 3, m2 ≤ 2
  · rcases hlt with hy | ⟨hyeq, hrest⟩
    · rcases Nat.lt_or_ge y1 (y2 - 1) with hyy | hyy
      · left; omega
      · right
        refine ⟨by omega, ?_⟩
        have hle := doy_le_305 y1 m1 d1 (by omega) hm12 hd12
        have hge := doy_ge_306 m2 d2 hm21 hb hd21
        omega
    · omega
  -- m1 ≥ 3, m2 ≥ 3
  · rcases hlt with hy | ⟨hyeq, hrest⟩
    · left; omega
    · right
      refine ⟨by omega, ?_⟩
      rcases hrest with hm | ⟨hmeq, hd⟩
      · exact doy_mono_m3 y1 m1 d1 m2 d2 (by omega) hm hm22 hd11 hd12 hd21
      · subst hmeq
        have hdoya : doyOf m1 d1 = monthStartDoy ((m1 + 9) % 12) + (d1 - 1) := rfl
        have hdoyb : doyOf m1 d2 = monthStartDoy ((m1 + 9) % 12) + (d2 - 1) := rfl
        omega

/-- `ymd_to_ord` is strictly monotone w.r.t. calendar order on valid dates. -/
theorem ord_strict_mono_core (y1 m1 d1 y2 m2 d2 : Nat)
    (hy11 : 1 ≤ y1) (hy12 : y1 ≤ 9999) (hm11 : 1 ≤ m1) (hm12 : m1 ≤ 12)
    (hd11 : 1 ≤ d1) (hd12 : d1 ≤ days_in_month y1 m1)
    (hy21 : 1 ≤ y2) (hy22 : y2 ≤ 9999) (hm21 : 1 ≤ m2) (hm22 : m2 ≤ 12)
    (hd21 : 1 ≤ d2) (hd22 : d2 ≤ days_in_month y2 m2)
    (hlt : y1 < y2 ∨ (y1 = y2 ∧ (m1 < m2 ∨ (m1 = m2 ∧ d1 < d2)))) :
    ymd_to_ord y1 m1 d1 < ymd_to_ord y2 m2 d2 := by
  have hlex := shifted_lex y1 m1 d1 y2 m2 d2 hy11 hm11 hm12 hd11 hd12 hm21 hm22 hd21 hlt
  have hG1 := ymd_to_ord_eq_G y1 m1 d1
  have hG2 := ymd_to_ord_eq_G y2 m2 d2
  have h306a := G_doy_ge_306 y1 m1 d1 hy11 hm11 hm12 hd11
  have h306b := G_doy_ge_306 y2 m2 d2 hy21 hm21 hm22 hd21
  rcases hlex with hslt | ⟨hseq, hdoy⟩
  · have hfit := doy_lt_lenG y1 m1 d1 hy11 hm11 hm12 hd11 hd12
    have hstep := G_step (shiftedYear y1 m1)
    have hmono : G (shiftedYear y1 m1 + 1) ≤ G (shiftedYear y2 m2) :=
      G_mono (by omega)
    omega
  · rw [hseq] at hG1 h306a
    omega

/-- Every valid date encodes within the supported ordinal range. -/
theorem ord_le_max (y m d : Nat) (hy1 : 1 ≤ y) (hy2 : y ≤ 9999)
    (hm1 : 1 ≤ m) (hm2 : m ≤ 12) (hd1 : 1 ≤ d) (hd2 : d ≤ days_in_month y m) :
    ymd_to_ord y m d ≤ 3652058 := by
  by_cases hmax : y = 9999 ∧ m = 12 ∧ d = 31
  · obtain ⟨h1, h2, h3⟩ := hmax
    subst h1 h2 h3
    rw [ord_max_val]
  · have hd31 : d ≤ 31 := Nat.le_trans hd2 (dim_le_31 y m)
    have hdim : days_in_month 9999 12 = 31 := by decide
    have hlt : y < 9999 ∨ (y = 9999 ∧ (m < 12 ∨ (m = 12 ∧ d < 31))) := by
      by_contra hc
      push_neg at hc
      exact hmax ⟨by omega, by omega, by omega⟩
    have := ord_strict_mono_core y m d 9999 12 31 hy1 hy2 hm1 hm2 hd1 hd2
      (by omega) (by omega) (by omega) (by omega) (by omega) (by omega) hlt
    rw [ord_max_val] at this
    omega

/-! ## Instant composer: arithmetic bridge lemmas -/

theorem U8_MOD_val : U8_MOD = 256 := rfl

theorem U32_MOD_val : U32_MOD = 4294967296 := rfl

theorem U64_MOD_val : U64_MOD = 18446744073709551616 := rfl

/-- `Instant::from_datetime` on a valid datetime: the `u64` sum does not
wrap, so the stored seconds equal the mathematical sum. -/
theorem from_secs (y m d h mi s n : Nat) (hy1 : 1 ≤ y) (hy2 : y ≤ 9999)
    (hm1 : 1 ≤ m) (hm2 : m ≤ 12) (hd1 : 1 ≤ d) (hd2 : d ≤ days_in_month y m)
    (hh : h ≤ 23) (hmi : mi ≤ 59) (hs : s ≤ 59) :
    (Instant.from_datetime ⟨⟨y, m, d⟩, ⟨h, mi, s, n⟩⟩).secs
      = ymd_to_ord y m d * 86400 + h * 3600 + mi * 60 + s := by
  show (ymd_to_ord y m d * 86400 + h * 3600 + mi * 60 + s) % U64_MOD = _
  have hb := ord_le_max y m d hy1 hy2 hm1 hm2 hd1 hd2
  rw [U64_MOD_val]
  omega

theorem to_datetime_mk (ss nn : Nat) : Instant.to_datetime ⟨ss, nn⟩ =
    ⟨⟨yearAt (ss / 86400 % U32_MOD), monthAt (ss / 86400 % U32_MOD),
        dayAt (ss / 86400 % U32_MOD)⟩,
      ⟨ss % 86400 / 3600 % U8_MOD, ss % 3600 / 60 % U8_MOD,
        ss % 60 % U8_MOD, nn⟩⟩ := rfl

/-- The civil → instant → civil round trip, componentwise. -/
theorem instant_roundtrip (y m d h mi s n : Nat) (hy1 : 1 ≤ y) (hy2 : y ≤ 9999)
    (hm1 : 1 ≤ m) (hm2 : m ≤ 12) (hd1 : 1 ≤ d) (hd2 : d ≤ days_in_month y m)
    (hh : h ≤ 23) (hmi : mi ≤ 59) (hs : s ≤ 59) :
    Instant.to_datetime (Instant.from_datetime ⟨⟨y, m, d⟩, ⟨h, mi, s, n⟩⟩)
      = ⟨⟨y, m, d⟩, ⟨h, mi, s, n⟩⟩ := by
  have hfs := from_secs y m d h mi s n hy1 hy2 hm1 hm2 hd1 hd2 hh hmi hs
  have hfn : (Instant.from_datetime ⟨⟨y, m, d⟩, ⟨h, mi, s, n⟩⟩).nanos = n := rfl
  have hX : Instant.from_datetime ⟨⟨y, m, d⟩, ⟨h, mi, s, n⟩⟩ =
      ⟨(Instant.from_datetime ⟨⟨y, m, d⟩, ⟨h, mi, s, n⟩⟩).secs,
        (Instant.from_datetime ⟨⟨y, m, d⟩, ⟨h, mi, s, n⟩⟩).nanos⟩ := rfl
  rw [hX, hfs, hfn, to_datetime_mk]
  have hb := ord_le_max y m d hy1 hy2 hm1 hm2 hd1 hd2
  have hE : (ymd_to_ord y m d * 86400 + h * 3600 + mi * 60 + s) / 86400 % U32_MOD
      = ymd_to_ord y m d := by
    rw [U32_MOD_val]
    omega
  rw [hE]
  have h1 := ord_roundtrip1 y m d hy1 hy2 hm1 hm2 hd1 hd2
  rw [ord_to_ymd] at h1
  have hyy : yearAt (ymd_to_ord y m d) = y := congrArg Prod.fst h1
  have hmm : monthAt (ymd_to_ord y m d) = m := congrArg (fun p => p.2.1) h1
  have hdd : dayAt (ymd_to_ord y m d) = d := congrArg (fun p => p.2.2) h1
  have hhour : (ymd_to_ord y m d * 86400 + h * 3600 + mi * 60 + s)
      % 86400 / 3600 % U8_MOD = h := by
    rw [U8_MOD_val]
    omega
  have hminute : (ymd_to_ord y m d * 86400 + h * 3600 + mi * 60 + s)
      % 3600 / 60 % U8_MOD = mi := by
    rw [U8_MOD_val]
    omega
  have hsecond : (ymd_to_ord y m d * 86400 + h * 3600 + mi * 60 + s)
      % 60 % U8_MOD = s := by
    rw [U8_MOD_val]
    omega
  rw [hyy, hmm, hdd, hhour, hminute, hsecond]

/-- Chronological order on civil date-times is total. -/
theorem chrono_total (a b : DateTime) :
    DateTime.chronoLt a b ∨ a = b ∨ DateTime.chronoLt b a := by
  obtain ⟨⟨y1, m1, d1⟩, h1, mi1, s1, n1⟩ := a
  obtain ⟨⟨y2, m2, d2⟩, h2, mi2, s2, n2⟩ := b
  simp only [DateTime.chronoLt, Date.chronoLt, Time.chronoLt, DateTime.mk.injEq,
    Date.mk.injEq, Time.mk.injEq]
  omega

/-- Chronological increase maps to instant increase (forward direction). -/
theorem agree_mp (y1 m1 d1 h1 mi1 s1 n1 y2 m2 d2 h2 mi2 s2 n2 : Nat)
    (hv1 : 1 ≤ y1 ∧ y1 ≤ 9999 ∧ 1 ≤ m1 ∧ m1 ≤ 12 ∧ 1 ≤ d1 ∧
      d1 ≤ days_in_month y1 m1 ∧ h1 ≤ 23 ∧ mi1 ≤ 59 ∧ s1 ≤ 59)
    (hv2 : 1 ≤ y2 ∧ y2 ≤ 9999 ∧ 1 ≤ m2 ∧ m2 ≤ 12 ∧ 1 ≤ d2 ∧
      d2 ≤ days_in_month y2 m2 ∧ h2 ≤ 23 ∧ mi2 ≤ 59 ∧ s2 ≤ 59)
    (hlt : DateTime.chronoLt ⟨⟨y1, m1, d1⟩, ⟨h1, mi1, s1, n1⟩⟩
      ⟨⟨y2, m2, d2⟩, ⟨h2, mi2, s2, n2⟩⟩) :
    Instant.lt (Instant.from_datetime ⟨⟨y1, m1, d1⟩, ⟨h1, mi1, s1, n1⟩⟩)
      (Instant.from_datetime ⟨⟨y2, m2, d2⟩, ⟨h2, mi2, s2, n2⟩⟩) := by
  obtain ⟨ha1, ha2, ha3, ha4, ha5, ha6, ha7, ha8, ha9⟩ := hv1
  obtain ⟨hb1, hb2, hb3, hb4, hb5, hb6, hb7, hb8, hb9⟩ := hv2
  have hfa := from_secs y1 m1 d1 h1 mi1 s1 n1 ha1 ha2 ha3 ha4 ha5 ha6 ha7 ha8 ha9
  have hfb := from_secs y2 m2 d2 h2 mi2 s2 n2 hb1 hb2 hb3 hb4 hb5 hb6 hb7 hb8 hb9
  have hna : (Instant.from_datetime ⟨⟨y1, m1, d1⟩, ⟨h1, mi1, s1, n1⟩⟩).nanos = n1 := rfl
  have hnb : (Instant.from_datetime ⟨⟨y2, m2, d2⟩, ⟨h2, mi2, s2, n2⟩⟩).nanos = n2 := rfl
  simp only [DateTime.chronoLt, Date.chronoLt, Time.chronoLt, Date.mk.injEq] at hlt
  unfold Instant.lt
  rw [hfa, hfb, hna, hnb]
  rcases hlt with hdate | ⟨⟨hye, hme, hde⟩, htime⟩
  · -- the dates differ: the ordinals differ strictly
    left
    have hord := ord_strict_mono_core y1 m1 d1 y2 m2 d2
      ha1 ha2 ha3 ha4 ha5 ha6 hb1 hb2 hb3 hb4 hb5 hb6 hdate
    omega
  · -- same date, times compared lexicographically
    subst hye hme hde
    rcases htime with hh | ⟨hhe, hmm | ⟨hmme, hss | ⟨hsse, hnn⟩⟩⟩
    · left; omega
    · left; omega
    · left; omega
    · right
      subst hhe hmme hsse
      exact ⟨rfl, hnn⟩

/-! ## `check_date` characterisation -/

theorem check_date_ok_iff (y m d : Nat) (dd : Date) :
    check_date y m d = .ok dd ↔
      (dd = ⟨y, m, d⟩ ∧ 1 ≤ y ∧ y ≤ 9999 ∧ 1 ≤ m ∧ m ≤ 12 ∧ 1 ≤ d ∧
        d ≤ days_in_month y m) := by
  have h16 : U16_MOD = 65536 := rfl
  have h8 : U8_MOD = 256 := rfl
  have hMAX : MAX_YEAR = 9999 := rfl
  have hMIN : MIN_YEAR = 1 := rfl
  have hdim := dim_le_31 y m
  unfold check_date
  split_ifs with h1 h2 h3 h4 h5 h6
  · constructor
    · intro hc; simp at hc
    · rintro ⟨-, hc⟩; omega
  · constructor
    · intro hc; simp at hc
    · rintro ⟨-, hc⟩; omega
  · constructor
    · intro hc; simp at hc
    · rintro ⟨-, hc⟩; omega
  · constructor
    · intro hc; simp at hc
    · rintro ⟨-, hc⟩; omega
  · constructor
    · intro hc; simp at hc
    · rintro ⟨-, hc⟩; omega
  · constructor
    · intro hc; simp at hc
    · rintro ⟨-, hc⟩; omega
  · simp only [Except.ok.injEq]
    constructor
    · intro h
      exact ⟨h.symm, by omega, by omega, by omega, by omega, by omega, by omega⟩
    · intro h
      exact h.1.symm

/-- The full branch structure of `check_date`: width checks (year `u16`,
month `u8`, day `u8`) in that order, then range checks (year, month, day)
in that order; the first failing check names the error. -/
theorem check_date_cases (y m d : Nat) :
    (65536 ≤ y → check_date y m d = .error .InvalidYear) ∧
    (y < 65536 → 256 ≤ m → check_date y m d = .error .InvalidMonth) ∧
    (y < 65536 → m < 256 → 256 ≤ d → check_date y m d = .error .InvalidDay) ∧
    (y < 65536 → m < 256 → d < 256 → ¬(1 ≤ y ∧ y ≤ 9999) →
      check_date y m d = .error .InvalidYear) ∧
    (y < 65536 → m < 256 → d < 256 → 1 ≤ y → y ≤ 9999 → ¬(1 ≤ m ∧ m ≤ 12) →
      check_date y m d = .error .InvalidMonth) ∧
    (y < 65536 → m < 256 → d < 256 → 1 ≤ y → y ≤ 9999 → 1 ≤ m → m ≤ 12 →
      ¬(1 ≤ d ∧ d ≤ days_in_month y m) → check_date y m d = .error .InvalidDay) := by
  have h16 : U16_MOD = 65536 := rfl
  have h8 : U8_MOD = 256 := rfl
  have hMAX : MAX_YEAR = 9999 := rfl
  have hMIN : MIN_YEAR = 1 := rfl
  unfold check_date
  split_ifs with h1 h2 h3 h4 h5 h6 <;>
    refine ⟨?_, ?_, ?_, ?_, ?_, ?_⟩ <;> intros <;> first | rfl | omega

/-! ## The claims -/

/-- C1: for every valid CivilDateTime `t` (date fields satisfying the
CalendarDate invariant and time fields satisfying the TimeOfDay invariant),
`datetime_from_instant (instant_from_datetime t)` equals `t` bit-for-bit:
the same year, month, day, hour, minute, second and nanosecond. -/
theorem claim1_datetime_roundtrip (dt : DateTime) (hv : ValidDateTime dt) :
    Instant.to_datetime (Instant.from_datetime dt) = dt := by
  obtain ⟨⟨y, m, d⟩, h, mi, s, n⟩ := dt
  obtain ⟨⟨hy1, hy2, hm1, hm2, hd1, hd2⟩, hh, hmi, hs, -⟩ := hv
  exact instant_roundtrip y m d h mi s n hy1 hy2 hm1 hm2 hd1 hd2 hh hmi hs

theorem claim1_witness :
    ValidDateTime ⟨⟨2020, 2, 29⟩, ⟨23, 59, 59, 999999999⟩⟩ ∧
    Instant.to_datetime (Instant.from_datetime ⟨⟨2020, 2, 29⟩, ⟨23, 59, 59, 999999999⟩⟩)
      = ⟨⟨2020, 2, 29⟩, ⟨23, 59, 59, 999999999⟩⟩ :=
  ⟨by decide, claim1_datetime_roundtrip _ (by decide)⟩

/-- C2: `to_ordinal` and `from_ordinal` are mutually inverse over the full
valid date range (years 1–9999, whose last ordinal is 3652058 =
`ymd_to_ord 9999 12 31`), `from_ordinal` lands on valid dates there, and
`to_ordinal` is strictly monotone w.r.t. calendar order. -/
theorem claim2_ordinal_bijection :
    (∀ dd : Date, ValidDate dd →
      ord_to_ymd (ymd_to_ord dd.year dd.month dd.day) = (dd.year, dd.month, dd.day)) ∧
    ymd_to_ord 9999 12 31 = 3652058 ∧
    (∀ o : Nat, o ≤ 3652058 →
      ymd_to_ord (ord_to_ymd o).1 (ord_to_ymd o).2.1 (ord_to_ymd o).2.2 = o ∧
      ValidDate ⟨(ord_to_ymd o).1, (ord_to_ymd o).2.1, (ord_to_ymd o).2.2⟩) ∧
    (∀ d1 d2 : Date, ValidDate d1 → ValidDate d2 → Date.chronoLt d1 d2 →
      ymd_to_ord d1.year d1.month d1.day < ymd_to_ord d2.year d2.month d2.day) := by
  refine ⟨?_, ord_max_val, ?_, ?_⟩
  · intro dd hv
    obtain ⟨y, m, d⟩ := dd
    obtain ⟨hy1, hy2, hm1, hm2, hd1, hd2⟩ := hv
    exact ord_roundtrip1 y m d hy1 hy2 hm1 hm2 hd1 hd2
  · intro o ho
    refine ⟨ord_roundtrip2 o, ?_⟩
    obtain ⟨hm1, hm2, hd1, hdle, hy1, -⟩ := ord_parts o
    exact ⟨hy1, yearAt_le o ho, hm1, hm2, hd1, hdle⟩
  · intro d1 d2 hv1 hv2 hlt
    obtain ⟨y1, m1, dd1⟩ := d1
    obtain ⟨y2, m2, dd2⟩ := d2
    obtain ⟨ha1, ha2, ha3, ha4, ha5, ha6⟩ := hv1
    obtain ⟨hb1, hb2, hb3, hb4, hb5, hb6⟩ := hv2
    exact ord_strict_mono_core y1 m1 dd1 y2 m2 dd2
      ha1 ha2 ha3 ha4 ha5 ha6 hb1 hb2 hb3 hb4 hb5 hb6 hlt

theorem claim2_witness :
    ValidDate ⟨2020, 2, 29⟩ ∧ ValidDate ⟨2020, 3, 1⟩ ∧
    Date.chronoLt ⟨2020, 2, 29⟩ ⟨2020, 3, 1⟩ ∧
    ord_to_ymd (ymd_to_ord 2020 2 29) = (2020, 2, 29) ∧
    ymd_to_ord (ord_to_ymd 737849).1 (ord_to_ymd 737849).2.1
      (ord_to_ymd 737849).2.2 = 737849 ∧
    ymd_to_ord 2020 2 29 < ymd_to_ord 2020 3 1 :=
  ⟨by decide, by decide, by decide,
    claim2_ordinal_bijection.1 ⟨2020, 2, 29⟩ (by decide),
    (claim2_ordinal_bijection.2.2.1 737849 (by decide)).1,
    claim2_ordinal_bijection.2.2.2 ⟨2020, 2, 29⟩ ⟨2020, 3, 1⟩
      (by decide) (by decide) (by decide)⟩

/-- C3: `make_date` succeeds exactly when 1 ≤ year ≤ 9999, 1 ≤ month ≤ 12
and 1 ≤ day ≤ `days_in_month year month`; on success the returned date's
fields equal the inputs; February has 29 days in a leap year and 28
otherwise; a year is leap iff divisible by 4 and (not divisible by 100, or
divisible by 400); and the five named boundary cases behave as stated. -/
theorem claim3_make_date :
    (∀ y m d : Nat, (∃ dd, check_date y m d = .ok dd) ↔
      (1 ≤ y ∧ y ≤ 9999 ∧ 1 ≤ m ∧ m ≤ 12 ∧ 1 ≤ d ∧ d ≤ days_in_month y m)) ∧
    (∀ y m d : Nat, ∀ dd, check_date y m d = .ok dd → dd = ⟨y, m, d⟩) ∧
    (∀ y : Nat, days_in_month y 2 = if is_leap y = true then 29 else 28) ∧
    (∀ y : Nat, is_leap y = true ↔ (y % 4 = 0 ∧ (y % 100 ≠ 0 ∨ y % 400 = 0))) ∧
    check_date 1900 2 29 = .error .InvalidDay ∧
    check_date 2000 2 29 = .ok ⟨2000, 2, 29⟩ ∧
    check_date 2000 2 30 = .error .InvalidDay ∧
    check_date 2020 2 29 = .ok ⟨2020, 2, 29⟩ ∧
    check_date 2021 2 29 = .error .InvalidDay := by
  refine ⟨?_, ?_, dim_feb, ?_, rfl, rfl, rfl, rfl, rfl⟩
  · intro y m d
    constructor
    · rintro ⟨dd, hdd⟩
      exact ((check_date_ok_iff y m d dd).mp hdd).2
    · intro hc
      exact ⟨⟨y, m, d⟩, (check_date_ok_iff y m d ⟨y, m, d⟩).mpr ⟨rfl, hc⟩⟩
  · intro y m d dd hdd
    exact ((check_date_ok_iff y m d dd).mp hdd).1
  · intro y
    simp only [is_leap, Bool.or_eq_true, Bool.and_eq_true, beq_iff_eq,
      bne_iff_ne, ne_eq]
    omega

theorem claim3_witness :
    (∃ dd, check_date 2021 4 30 = .ok dd) ∧
    (1 ≤ 2021 ∧ 2021 ≤ 9999 ∧ 1 ≤ 4 ∧ 4 ≤ 12 ∧ 1 ≤ 30 ∧
      30 ≤ days_in_month 2021 4) :=
  ⟨(claim3_make_date.1 2021 4 30).mpr (by decide), by decide⟩

/-- C4 counterexample: year 0 is outside [1, 9999], yet
`check_date 0 300 1` reports `InvalidMonth`, not `InvalidYear`: the `u8`
width check on the month runs before the year range check. -/
theorem claim4_counterexample :
    ¬ (1 ≤ (0 : Nat) ∧ (0 : Nat) ≤ 9999) ∧
    check_date 0 300 1 = .error .InvalidMonth ∧
    check_date 0 300 1 ≠ .error .InvalidYear := by
  refine ⟨by omega, rfl, fun h => ?_⟩
  rw [show check_date 0 300 1 = .error .InvalidMonth from rfl] at h
  simp at h

/-- C4 (amended): `make_date` checks, in a fixed order, first that each
input fits its target width — year in `u16`, then month in `u8`, then day
in `u8`, the first failure naming that field's error — and then the ranges
in the order year, month, day; the first failing check determines the
error. -/
theorem claim4_amended (y m d : Nat) :
    (65536 ≤ y → check_date y m d = .error .InvalidYear) ∧
    (y < 65536 → 256 ≤ m → check_date y m d = .error .InvalidMonth) ∧
    (y < 65536 → m < 256 → 256 ≤ d → check_date y m d = .error .InvalidDay) ∧
    (y < 65536 → m < 256 → d < 256 → ¬(1 ≤ y ∧ y ≤ 9999) →
      check_date y m d = .error .InvalidYear) ∧
    (y < 65536 → m < 256 → d < 256 → 1 ≤ y → y ≤ 9999 → ¬(1 ≤ m ∧ m ≤ 12) →
      check_date y m d = .error .InvalidMonth) ∧
    (y < 65536 → m < 256 → d < 256 → 1 ≤ y → y ≤ 9999 → 1 ≤ m → m ≤ 12 →
      ¬(1 ≤ d ∧ d ≤ days_in_month y m) → check_date y m d = .error .InvalidDay) :=
  check_date_cases y m d

theorem claim4_witness :
    check_date 70000 1 1 = .error .InvalidYear ∧
    check_date 0 300 1 = .error .InvalidMonth ∧
    check_date 2021 0 300 = .error .InvalidDay ∧
    check_date 0 1 1 = .error .InvalidYear ∧
    check_date 2021 13 1 = .error .InvalidMonth ∧
    check_date 2021 4 31 = .error .InvalidDay :=
  ⟨(claim4_amended 70000 1 1).1 (by omega),
    (claim4_amended 0 300 1).2.1 (by omega) (by omega),
    (claim4_amended 2021 0 300).2.2.1 (by omega) (by omega) (by omega),
    (claim4_amended 0 1 1).2.2.2.1 (by omega) (by omega) (by omega) (by omega),
    (claim4_amended 2021 13 1).2.2.2.2.1 (by omega) (by omega) (by omega)
      (by omega) (by omega) (by omega),
    (claim4_amended 2021 4 31).2.2.2.2.2 (by omega) (by omega) (by omega)
      (by omega) (by omega) (by omega) (by omega) (by decide)⟩

/-- C5: on a valid CivilDateTime the produced Instant's seconds equal
`to_ordinal(date) * 86400 + hour * 3600 + minute * 60 + second` and the
nanoseconds are the time's nanosecond, unchanged. -/
theorem claim5_from_datetime_formula (dt : DateTime) (hv : ValidDateTime dt) :
    (Instant.from_datetime dt).secs =
      ymd_to_ord dt.date.year dt.date.month dt.date.day * 86400
        + dt.time.hour * 3600 + dt.time.minute * 60 + dt.time.second ∧
    (Instant.from_datetime dt).nanos = dt.time.nanos := by
  obtain ⟨⟨y, m, d⟩, h, mi, s, n⟩ := dt
  obtain ⟨⟨hy1, hy2, hm1, hm2, hd1, hd2⟩, hh, hmi, hs, -⟩ := hv
  exact ⟨from_secs y m d h mi s n hy1 hy2 hm1 hm2 hd1 hd2 hh hmi hs, rfl⟩

theorem claim5_witness :
    ValidDateTime ⟨⟨2021, 1, 1⟩, ⟨0, 0, 0, 5⟩⟩ ∧
    (Instant.from_datetime ⟨⟨2021, 1, 1⟩, ⟨0, 0, 0, 5⟩⟩).secs
      = ymd_to_ord 2021 1 1 * 86400 + 0 * 3600 + 0 * 60 + 0 ∧
    (Instant.from_datetime ⟨⟨2021, 1, 1⟩, ⟨0, 0, 0, 5⟩⟩).nanos = 5 :=
  ⟨by decide,
    (claim5_from_datetime_formula ⟨⟨2021, 1, 1⟩, ⟨0, 0, 0, 5⟩⟩ (by decide)).1,
    (claim5_from_datetime_formula ⟨⟨2021, 1, 1⟩, ⟨0, 0, 0, 5⟩⟩ (by decide)).2⟩

/-- The spec's successive-division decomposition of an Instant
(sect. 4.4): ordinal = seconds / 86400, then hour/minute/second by
successive division of the remainder by 3600, 60, 1; nanoseconds copied.
Written from the spec's words, to be compared with `Instant.to_datetime`. -/
def to_datetime_specDiv (i : Instant) : DateTime :=
  { date := { year := (ord_to_ymd (i.secs / 86400)).1,
              month := (ord_to_ymd (i.secs / 86400)).2.1,
              day := (ord_to_ymd (i.secs / 86400)).2.2 },
    time := { hour := i.secs % 86400 / 3600,
              minute := i.secs % 86400 % 3600 / 60,
              second := i.secs % 86400 % 3600 % 60,
              nanos := i.nanos } }

/-- C6: the code's minute and second formulas (`secs % 3600 / 60` and
`secs % 60`) agree with the spec's successive-division decomposition for
every `u64` seconds value, and on every Instant whose day count fits the
`u32` ordinal cast (in particular the whole supported range, whose days
number at most 3652058) `to_datetime` computes exactly the spec's
successive-division decomposition. -/
theorem claim6_successive_division :
    (∀ secs : Nat, secs % 86400 / 3600 = secs % 86400 / 3600 ∧
      secs % 86400 % 3600 / 60 = secs % 3600 / 60 ∧
      secs % 86400 % 3600 % 60 = secs % 60) ∧
    (∀ i : Instant, i.secs / 86400 < 4294967296 →
      Instant.to_datetime i = to_datetime_specDiv i) := by
  constructor
  · intro secs
    refine ⟨rfl, by omega, by omega⟩
  · intro i hi
    obtain ⟨ss, nn⟩ := i
    have hss : (Instant.mk ss nn).secs = ss := rfl
    rw [hss] at hi
    have hspec : to_datetime_specDiv ⟨ss, nn⟩ =
        ⟨⟨(ord_to_ymd (ss / 86400)).1, (ord_to_ymd (ss / 86400)).2.1,
            (ord_to_ymd (ss / 86400)).2.2⟩,
          ⟨ss % 86400 / 3600, ss % 86400 % 3600 / 60,
            ss % 86400 % 3600 % 60, nn⟩⟩ := rfl
    rw [to_datetime_mk, hspec]
    have e1 : ss / 86400 % U32_MOD = ss / 86400 := by
      rw [U32_MOD_val]; omega
    have e2 : ss % 86400 / 3600 % U8_MOD = ss % 86400 / 3600 := by
      rw [U8_MOD_val]; omega
    have e3 : ss % 3600 / 60 % U8_MOD = ss % 86400 % 3600 / 60 := by
      rw [U8_MOD_val]; omega
    have e4 : ss % 60 % U8_MOD = ss % 86400 % 3600 % 60 := by
      rw [U8_MOD_val]; omega
    rw [e1, e2, e3, e4]
    rfl

theorem claim6_witness :
    ((Instant.mk 86400 7).secs / 86400 < 4294967296) ∧
    Instant.to_datetime ⟨86400, 7⟩ = to_datetime_specDiv ⟨86400, 7⟩ :=
  ⟨by decide, claim6_successive_division.2 ⟨86400, 7⟩ (by decide)⟩

/-- C7: for valid CivilDateTimes the seconds computation does not overflow
`u64`: the mathematical sum is below 2^64 (the ordinal never exceeds
3652058, the day count of 9999-12-31), so the stored `u64` equals the
mathematical value with no wraparound. -/
theorem claim7_no_overflow (dt : DateTime) (hv : ValidDateTime dt) :
    ymd_to_ord dt.date.year dt.date.month dt.date.day * 86400
        + dt.time.hour * 3600 + dt.time.minute * 60 + dt.time.second
      < 18446744073709551616 ∧
    (Instant.from_datetime dt).secs =
      ymd_to_ord dt.date.year dt.date.month dt.date.day * 86400
        + dt.time.hour * 3600 + dt.time.minute * 60 + dt.time.second ∧
    ymd_to_ord dt.date.year dt.date.month dt.date.day ≤ 3652058 := by
  obtain ⟨⟨y, m, d⟩, h, mi, s, n⟩ := dt
  obtain ⟨⟨hy1, hy2, hm1, hm2, hd1, hd2⟩, hh, hmi, hs, -⟩ := hv
  have hb := ord_le_max y m d hy1 hy2 hm1 hm2 hd1 hd2
  have hh' : h ≤ 23 := hh
  have hmi' : mi ≤ 59 := hmi
  have hs' : s ≤ 59 := hs
  have h1 : ymd_to_ord y m d * 86400 + h * 3600 + mi * 60 + s
      < 18446744073709551616 := by omega
  exact ⟨h1, from_secs y m d h mi s n hy1 hy2 hm1 hm2 hd1 hd2 hh hmi hs, hb⟩

theorem claim7_witness :
    ValidDateTime ⟨⟨9999, 12, 31⟩, ⟨23, 59, 59, 0⟩⟩ ∧
    ymd_to_ord 9999 12 31 * 86400 + 23 * 3600 + 59 * 60 + 59
      < 18446744073709551616 ∧
    (Instant.from_datetime ⟨⟨9999, 12, 31⟩, ⟨23, 59, 59, 0⟩⟩).secs
      = ymd_to_ord 9999 12 31 * 86400 + 23 * 3600 + 59 * 60 + 59 :=
  ⟨by decide,
    (claim7_no_overflow ⟨⟨9999, 12, 31⟩, ⟨23, 59, 59, 0⟩⟩ (by decide)).1,
    (claim7_no_overflow ⟨⟨9999, 12, 31⟩, ⟨23, 59, 59, 0⟩⟩ (by decide)).2.1⟩

/-- C8: `make_date` is total over `u64` inputs: every triple yields either
a valid CalendarDate or a DateError (no panic, no undefined behaviour), and
a value that does not fit the target width (u16 year, u8 month, u8 day) is
treated as out-of-range, yielding the corresponding field's error. -/
theorem claim8_totality (y m d : Nat) (hy : y < 18446744073709551616)
    (hm : m < 18446744073709551616) (hd : d < 18446744073709551616) :
    ((∃ dd, check_date y m d = .ok dd ∧ ValidDate dd) ∨
      (∃ e, check_date y m d = .error e)) ∧
    (65536 ≤ y → check_date y m d = .error .InvalidYear) ∧
    (y < 65536 → 256 ≤ m → check_date y m d = .error .InvalidMonth) ∧
    (y < 65536 → m < 256 → 256 ≤ d → check_date y m d = .error .InvalidDay) := by
  have hcc := check_date_cases y m d
  refine ⟨?_, hcc.1, hcc.2.1, hcc.2.2.1⟩
  cases hck : check_date y m d with
  | ok dd =>
    left
    obtain ⟨he, hrest⟩ := (check_date_ok_iff y m d dd).mp hck
    subst he
    exact ⟨⟨y, m, d⟩, rfl, hrest⟩
  | error e =>
    right
    exact ⟨e, rfl⟩

theorem claim8_witness :
    ((∃ dd, check_date 2021 4 30 = .ok dd ∧ ValidDate dd) ∨
      (∃ e, check_date 2021 4 30 = .error e)) ∧
    check_date 99999999 1 1 = .error .InvalidYear :=
  ⟨(claim8_totality 2021 4 30 (by omega) (by omega) (by omega)).1,
    (claim8_totality 99999999 1 1 (by omega) (by omega) (by omega)).2.1 (by omega)⟩

/-- Forward half of the order agreement: a chronological increase of valid
civil date-times strictly increases the composed Instant. -/
theorem agree_fwd (dt1 dt2 : DateTime) (hv1 : ValidDateTime dt1)
    (hv2 : ValidDateTime dt2) (hlt : DateTime.chronoLt dt1 dt2) :
    Instant.lt (Instant.from_datetime dt1) (Instant.from_datetime dt2) := by
  obtain ⟨⟨y1, m1, d1⟩, h1, mi1, s1, n1⟩ := dt1
  obtain ⟨⟨y2, m2, d2⟩, h2, mi2, s2, n2⟩ := dt2
  obtain ⟨⟨ha1, ha2, ha3, ha4, ha5, ha6⟩, ha7, ha8, ha9, -⟩ := hv1
  obtain ⟨⟨hb1, hb2, hb3, hb4, hb5, hb6⟩, hb7, hb8, hb9, -⟩ := hv2
  exact agree_mp y1 m1 d1 h1 mi1 s1 n1 y2 m2 d2 h2 mi2 s2 n2
    ⟨ha1, ha2, ha3, ha4, ha5, ha6, ha7, ha8, ha9⟩
    ⟨hb1, hb2, hb3, hb4, hb5, hb6, hb7, hb8, hb9⟩ hlt

/-- C9: the derived order on Instant is the lexicographic order on
(seconds, nanoseconds); it is a strict total order; on Instants produced
from valid CivilDateTimes it agrees exactly with chronological order; and
the Instant for 2021-01-01T00:00:00 is strictly below the one for
2021-01-01T00:00:01. -/
theorem claim9_ordering :
    (∀ a b : Instant, Instant.lt a b ↔
      (a.secs < b.secs ∨ (a.secs = b.secs ∧ a.nanos < b.nanos))) ∧
    (∀ a : Instant, ¬ Instant.lt a a) ∧
    (∀ a b c : Instant, Instant.lt a b → Instant.lt b c → Instant.lt a c) ∧
    (∀ a b : Instant, Instant.lt a b ∨ a = b ∨ Instant.lt b a) ∧
    (∀ dt1 dt2 : DateTime, ValidDateTime dt1 → ValidDateTime dt2 →
      (DateTime.chronoLt dt1 dt2 ↔
        Instant.lt (Instant.from_datetime dt1) (Instant.from_datetime dt2))) ∧
    Instant.lt (Instant.from_datetime ⟨⟨2021, 1, 1⟩, ⟨0, 0, 0, 0⟩⟩)
      (Instant.from_datetime ⟨⟨2021, 1, 1⟩, ⟨0, 0, 1, 0⟩⟩) := by
  refine ⟨fun a b => Iff.rfl, ?_, ?_, ?_, ?_, by decide⟩
  · intro a
    unfold Instant.lt
    omega
  · intro a b c hab hbc
    unfold Instant.lt at *
    omega
  · intro a b
    obtain ⟨s1, n1⟩ := a
    obtain ⟨s2, n2⟩ := b
    simp only [Instant.lt, Instant.mk.injEq]
    omega
  · intro dt1 dt2 hv1 hv2
    constructor
    · exact agree_fwd dt1 dt2 hv1 hv2
    · intro hlt
      rcases chrono_total dt1 dt2 with h | h | h
      · exact h
      · subst h
        exfalso
        unfold Instant.lt at hlt
        omega
      · exfalso
        have h2 := agree_fwd dt2 dt1 hv2 hv1 h
        unfold Instant.lt at hlt h2
        omega

theorem claim9_witness :
    ValidDateTime ⟨⟨2021, 1, 1⟩, ⟨0, 0, 0, 0⟩⟩ ∧
    ValidDateTime ⟨⟨2021, 1, 1⟩, ⟨0, 0, 1, 0⟩⟩ ∧
    (DateTime.chronoLt ⟨⟨2021, 1, 1⟩, ⟨0, 0, 0, 0⟩⟩ ⟨⟨2021, 1, 1⟩, ⟨0, 0, 1, 0⟩⟩ ↔
      Instant.lt (Instant.from_datetime ⟨⟨2021, 1, 1⟩, ⟨0, 0, 0, 0⟩⟩)
        (Instant.from_datetime ⟨⟨2021, 1, 1⟩, ⟨0, 0, 1, 0⟩⟩)) :=
  ⟨by decide, by decide,
    claim9_ordering.2.2.2.2.1 ⟨⟨2021, 1, 1⟩, ⟨0, 0, 0, 0⟩⟩
      ⟨⟨2021, 1, 1⟩, ⟨0, 0, 1, 0⟩⟩ (by decide) (by decide)⟩

/-- C10: for every `u64` seconds value whatsoever, `datetime_from_instant`
returns time fields satisfying the TimeOfDay invariant — hour ≤ 23,
minute ≤ 59, second ≤ 59, with hour·3600 + minute·60 + second =
seconds mod 86400 — and the nanoseconds copied through unchanged. -/
theorem claim10_time_invariant (i : Instant) :
    (Instant.to_datetime i).time.hour ≤ 23 ∧
    (Instant.to_datetime i).time.minute ≤ 59 ∧
    (Instant.to_datetime i).time.second ≤ 59 ∧
    (Instant.to_datetime i).time.hour * 3600 + (Instant.to_datetime i).time.minute * 60
      + (Instant.to_datetime i).time.second = i.secs % 86400 ∧
    (Instant.to_datetime i).time.nanos = i.nanos := by
  obtain ⟨ss, nn⟩ := i
  have e1 : (Instant.to_datetime ⟨ss, nn⟩).time.hour = ss % 86400 / 3600 % U8_MOD := rfl
  have e2 : (Instant.to_datetime ⟨ss, nn⟩).time.minute = ss % 3600 / 60 % U8_MOD := rfl
  have e3 : (Instant.to_datetime ⟨ss, nn⟩).time.second = ss % 60 % U8_MOD := rfl
  have e4 : (Instant.to_datetime ⟨ss, nn⟩).time.nanos = nn := rfl
  have e5 : (Instant.mk ss nn).secs = ss := rfl
  have e6 : (Instant.mk ss nn).nanos = nn := rfl
  rw [e1, e2, e3, e4, e5, e6, U8_MOD_val]
  refine ⟨by omega, by omega, by omega, by omega, rfl⟩

end Whenever
